import Mathlib

/-!
Verification of the WikiTok repository: a shallow embedding of the
like-storage helpers (src/lib/storage.js), the feed controller
(the Home and WikiBrowser components), and the Wikipedia API helpers
(extractImages, getThumbnailImages, WikiCard.loadImages), together with
theorems settling the specification claims.
-/

namespace WikiTok

/-! ## JSON fragment used by storage.js

storage.js persists the liked set as the JSON serialization of an array
of strings (the page ids rendered in decimal).  We embed JSON.stringify
and JSON.parse on exactly this fragment: arrays of strings that contain
no double-quote character.  A stored value outside this fragment makes
JSON.parse throw, which getAllLikes catches, returning the empty list.
-/

/-- JSON rendering of one string item (no escaping: the ids stored by the
code are decimal digit strings). -/
def quoteItem (s : String) : String := "\"" ++ s ++ "\""

/-- Comma-separated JSON rendering of the items of an array of strings. -/
def encodeItems : List String → String
  | [] => ""
  | [s] => quoteItem s
  | s :: l => quoteItem s ++ "," ++ encodeItems l

/-- JSON.stringify of an array of quote-free strings. -/
def encodeLikes (l : List String) : String := "[" ++ encodeItems l ++ "]"

/-- Read one double-quoted string from the front of the character stream. -/
def takeQuoted : List Char → Option (String × List Char)
  | '\"' :: rest =>
    let body := rest.takeWhile (fun c => c ≠ '\"')
    match rest.drop body.length with
    | '\"' :: rest2 => some (String.mk body, rest2)
    | _ => none
  | _ => none

/-- Parse the comma-separated items of a JSON string array, up to the
closing bracket.  Fueled recursion; the fuel is the length of the input. -/
def parseItemsLoop : Nat → List Char → Option (List String)
  | 0, _ => none
  | fuel + 1, cs =>
    match takeQuoted cs with
    | none => none
    | some (s, rest) =>
      match rest with
      | [']'] => some [s]
      | ',' :: rest2 => (parseItemsLoop fuel rest2).map (fun l => s :: l)
      | _ => none

/-- JSON.parse restricted to arrays of strings; `none` models a parse
error (an exception thrown by JSON.parse). -/
def parseLikes (s : String) : Option (List String) :=
  match s.data with
  | '[' :: rest => if rest = [']'] then some [] else parseItemsLoop rest.length rest
  | _ => none

/-- A string with no embedded double quote: rendering it inside a JSON
string needs no escaping. -/
def QuoteFree (s : String) : Prop := '\"' ∉ s.data

/-! ### Round trip of the JSON fragment -/

theorem takeWhile_append_sat {p : Char → Bool} (l₁ l₂ : List Char)
    (h : ∀ c ∈ l₁, p c = true) :
    (l₁ ++ l₂).takeWhile p = l₁ ++ l₂.takeWhile p := by
  induction l₁ with
  | nil => rfl
  | cons c cs ih =>
    simp only [List.cons_append, List.takeWhile_cons, h c (by simp)]
    simp [ih (fun x hx => h x (by simp [hx]))]

theorem takeQuoted_quoteItem (s : String) (tail : List Char) (h : QuoteFree s) :
    takeQuoted ((quoteItem s).data ++ tail) = some (s, tail) := by
  have hdata : (quoteItem s).data ++ tail = '\"' :: (s.data ++ ('\"' :: tail)) := by
    simp [quoteItem, String.data_append]
  rw [hdata]
  unfold takeQuoted
  have hsat : ∀ c ∈ s.data, (decide ¬(c = '\"')) = true := by
    intro c hc
    simp only [decide_not, Bool.not_eq_true', decide_eq_false_iff_not]
    intro hcq; exact h (hcq ▸ hc)
  have htw : (s.data ++ ('\"' :: tail)).takeWhile (fun c => decide ¬(c = '\"'))
      = s.data := by
    rw [takeWhile_append_sat _ _ hsat]
    simp [List.takeWhile_cons]
  simp only [htw]
  have hdrop : (s.data ++ ('\"' :: tail)).drop s.data.length = '\"' :: tail :=
    List.drop_left s.data ('\"' :: tail)
  simp only [hdrop]

theorem parseItemsLoop_encodeItems :
    ∀ (l : List String) (fuel : Nat), l ≠ [] → (∀ x ∈ l, QuoteFree x) →
      (encodeItems l).data.length < fuel →
      parseItemsLoop fuel ((encodeItems l).data ++ [']']) = some l := by
  intro l
  induction l with
  | nil => intro fuel h; exact absurd rfl h
  | cons s t ih =>
    intro fuel _ hqf hlen
    obtain ⟨f, rfl⟩ : ∃ f, fuel = f + 1 := ⟨fuel - 1, by omega⟩
    match t with
    | [] =>
      have henc : encodeItems [s] = quoteItem s := rfl
      rw [henc] at hlen ⊢
      unfold parseItemsLoop
      rw [takeQuoted_quoteItem s [']'] (hqf s (by simp))]
      rfl
    | t₀ :: r =>
      have henc : encodeItems (s :: t₀ :: r)
          = quoteItem s ++ "," ++ encodeItems (t₀ :: r) := rfl
      rw [henc] at hlen ⊢
      have hsplit : ((quoteItem s ++ "," ++ encodeItems (t₀ :: r)).data ++ [']'])
          = (quoteItem s).data ++ (',' :: ((encodeItems (t₀ :: r)).data ++ [']'])) := by
        simp [String.data_append]
      rw [hsplit]
      unfold parseItemsLoop
      rw [takeQuoted_quoteItem s _ (hqf s (by simp))]
      have hrec : parseItemsLoop f ((encodeItems (t₀ :: r)).data ++ [']'])
          = some (t₀ :: r) := by
        refine ih f (by simp) (fun x hx => hqf x (by simp [hx])) ?_
        have hq : 2 ≤ (quoteItem s).data.length := by
          simp [quoteItem, String.data_append]
        simp only [String.data_append, List.length_append] at hlen
        simp only [String.data_append, List.length_append] at hq ⊢
        omega
      simp [hrec]

theorem encodeItems_ne_nil (s : String) (t : List String) :
    (encodeItems (s :: t)).data ≠ [] := by
  match t with
  | [] =>
    show (quoteItem s).data ≠ []
    simp [quoteItem, String.data_append]
  | t₀ :: r =>
    show (quoteItem s ++ "," ++ encodeItems (t₀ :: r)).data ≠ []
    simp [quoteItem, String.data_append]

theorem parseLikes_encodeLikes (l : List String) (h : ∀ x ∈ l, QuoteFree x) :
    parseLikes (encodeLikes l) = some l := by
  have hdata : (encodeLikes l).data = '[' :: ((encodeItems l).data ++ [']']) := by
    simp [encodeLikes, String.data_append]
  unfold parseLikes
  rw [hdata]
  match l with
  | [] => rfl
  | s :: t =>
    have hne : (encodeItems (s :: t)).data ++ [']'] ≠ [']'] := by
      intro hcontra
      apply encodeItems_ne_nil s t
      have hl := congrArg List.length hcontra
      simp only [List.length_append, List.length_cons, List.length_nil] at hl
      exact List.length_eq_zero.mp (by omega)
    simp only [hne, if_false]
    exact parseItemsLoop_encodeItems (s :: t) _ (by simp) h (by simp)

theorem encodeLikes_ne_empty (l : List String) : encodeLikes l ≠ "" := by
  intro hcontra
  have : (encodeLikes l).data = [] := by rw [hcontra]
  rw [show (encodeLikes l).data = '[' :: ((encodeItems l).data ++ [']']) by
    simp [encodeLikes, String.data_append]] at this
  exact absurd this (by simp)

/-! ## localStorage and the browser environment

localStorage is a key/value map of strings.  Its operations can throw
(storage unavailable, quota exceeded, security error); the `failing`
flag makes every operation throw, modelled with `Except`.  `window`
being undefined (server-side rendering) is a flag on the environment.
-/

structure LocalStorage where
  items : List (String × String)
  failing : Bool
deriving DecidableEq

/-- Raw lookup of a key (the first, most recently written, binding). -/
def LocalStorage.lookupItem (ls : LocalStorage) (k : String) : Option String :=
  (ls.items.find? (fun p => p.1 == k)).map Prod.snd

/-- localStorage.getItem: returns the stored string or null; throws when
the store is failing. -/
def LocalStorage.getItem (ls : LocalStorage) (k : String) :
    Except String (Option String) :=
  if ls.failing then .error "storage unavailable" else .ok (ls.lookupItem k)

/-- localStorage.setItem: overwrites the binding for the key; throws when
the store is failing. -/
def LocalStorage.setItem (ls : LocalStorage) (k v : String) :
    Except String LocalStorage :=
  if ls.failing then .error "storage unavailable"
  else .ok { ls with items := (k, v) :: ls.items }

/-- localStorage.removeItem: drops every binding for the key; throws when
the store is failing. -/
def LocalStorage.removeItem (ls : LocalStorage) (k : String) :
    Except String LocalStorage :=
  if ls.failing then .error "storage unavailable"
  else .ok { ls with items := ls.items.filter (fun p => !(p.1 == k)) }

/-- The browser environment seen by storage.js: whether `window` is
defined, and the localStorage contents. -/
structure Env where
  window : Bool
  store : LocalStorage
deriving DecidableEq

/-- A likeStatusChanged CustomEvent dispatched on `window`, with its
detail payload. -/
structure LikeEvent where
  pageId : Nat
  liked : Bool
deriving DecidableEq

/-! ## storage.js -/

/-- The key every read and write of the liked set uses (storage.js lines
14, 56, 78). -/
def likesKey : String := "wikiTokLikes"

/-- The key constant declared at the top of storage.js and used only by
clearAllLikes (line 4). -/
def LIKES_STORAGE_KEY : String := "wikitok_liked_pages"

/-- getAllLikes: reads the liked array from localStorage under the
wikiTokLikes key; a missing or empty value is replaced by the literal
string of an empty array; any storage or parse error is caught and
yields the empty list. -/
def getAllLikes (env : Env) : List String :=
  if env.window = false then []
  else
    match env.store.getItem likesKey with
    | .error _ => []
    | .ok v =>
      let raw := match v with
        | none => "[]"
        | some s => if s = "" then "[]" else s
      match parseLikes raw with
      | none => []
      | some likes => likes

/-- isPageLiked: membership of the decimal string of the page id in the liked
array; false during server-side rendering. -/
def isPageLiked (env : Env) (pageId : Nat) : Bool :=
  if env.window = false then false
  else (getAllLikes env).contains (Nat.repr pageId)

/-- togglePageLike: flips membership of the id in the liked array, writes
the new array back (this write is NOT inside a try/catch, so a storage
error propagates to the caller as `Except.error`), dispatches one
likeStatusChanged event with the new status, and returns the new status. -/
def togglePageLike (env : Env) (pageId : Nat) :
    Except String (Bool × Env × List LikeEvent) :=
  if env.window = false then .ok (false, env, [])
  else
    let likes := getAllLikes env
    let pageIdStr := Nat.repr pageId
    let isLiked := likes.contains pageIdStr
    let newLikes := if isLiked then likes.filter (fun id => id != pageIdStr)
                    else likes ++ [pageIdStr]
    match env.store.setItem likesKey (encodeLikes newLikes) with
    | .error e => .error e
    | .ok store' =>
        .ok (!isLiked, { env with store := store' }, [⟨pageId, !isLiked⟩])

/-- clearAllLikes: removes the key LIKES_STORAGE_KEY (note: not the key
the reads and writes use); storage errors are caught and logged. -/
def clearAllLikes (env : Env) : Env :=
  if env.window = false then env
  else
    match env.store.removeItem LIKES_STORAGE_KEY with
    | .error _ => env
    | .ok store' => { env with store := store' }

/-- Sequentially toggle the same page id N times, collecting the
dispatched events in order; the first error aborts. -/
def toggleN (env : Env) (pageId : Nat) : Nat → Except String (Env × List LikeEvent)
  | 0 => .ok (env, [])
  | n + 1 => do
    let (_, env1, evs1) ← togglePageLike env pageId
    let (env2, evs2) ← toggleN env1 pageId n
    return (env2, evs1 ++ evs2)

/-- The list of events dispatched by a run of toggles that starts with
liked state `p`: each toggle announces the flipped state, alternating. -/
def altEvents (pageId : Nat) : Bool → Nat → List LikeEvent
  | _, 0 => []
  | p, n + 1 => ⟨pageId, !p⟩ :: altEvents pageId (!p) n

/-- The liked array produced by one togglePageLike call, as a function of
the array it read. -/
def toggledList (l : List String) (pageId : Nat) : List String :=
  if l.contains (Nat.repr pageId) then l.filter (fun id => id != Nat.repr pageId)
  else l ++ [Nat.repr pageId]

/-- The liked array reached from `l0` after toggles have left the page in
liked state `p` (the page id absent from `l0`). -/
def likedList (l0 : List String) (pageId : Nat) : Bool → List String
  | false => l0
  | true => l0 ++ [Nat.repr pageId]

/-! ### Decimal digit strings contain no quote -/

theorem digitChar_mod_ten_ne_quote (n : Nat) : Nat.digitChar (n % 10) ≠ '\"' := by
  have h : n % 10 < 10 := Nat.mod_lt _ (by omega)
  set m := n % 10 with hm
  clear_value m
  interval_cases m <;> decide

theorem toDigitsCore_no_quote (fuel : Nat) :
    ∀ (n : Nat) (acc : List Char), '\"' ∉ acc →
      '\"' ∉ Nat.toDigitsCore 10 fuel n acc := by
  induction fuel with
  | zero => intro n acc hacc; exact hacc
  | succ f ih =>
    intro n acc hacc
    unfold Nat.toDigitsCore
    dsimp only
    split
    · intro hmem
      rcases List.mem_cons.mp hmem with h | h
      · exact digitChar_mod_ten_ne_quote n h.symm
      · exact hacc h
    · refine ih _ _ ?_
      intro hmem
      rcases List.mem_cons.mp hmem with h | h
      · exact digitChar_mod_ten_ne_quote n h.symm
      · exact hacc h

theorem quoteFree_repr (n : Nat) : QuoteFree (Nat.repr n) := by
  show '\"' ∉ Nat.toDigits 10 n
  exact toDigitsCore_no_quote _ _ _ (by simp)

/-! ### Behaviour of reads and writes on a well-formed store -/

theorem getAllLikes_of_stored (env : Env) (l : List String)
    (hwin : env.window = true) (hfail : env.store.failing = false)
    (hstore : env.store.lookupItem likesKey = some (encodeLikes l))
    (hqf : ∀ x ∈ l, QuoteFree x) :
    getAllLikes env = l := by
  unfold getAllLikes LocalStorage.getItem
  rw [hwin, hfail, hstore]
  simp only [Bool.true_eq_false, if_false, Bool.false_eq_true]
  rw [if_neg (encodeLikes_ne_empty l), parseLikes_encodeLikes l hqf]

theorem lookupItem_prepend (ls : LocalStorage) (k v : String) :
    LocalStorage.lookupItem { ls with items := (k, v) :: ls.items } k = some v := by
  simp [LocalStorage.lookupItem, List.find?]

theorem togglePageLike_good (env : Env) (pageId : Nat) (l : List String)
    (hwin : env.window = true) (hfail : env.store.failing = false)
    (hstore : env.store.lookupItem likesKey = some (encodeLikes l))
    (hqf : ∀ x ∈ l, QuoteFree x) :
    togglePageLike env pageId =
      .ok (!(l.contains (Nat.repr pageId)),
           { env with store := { env.store with
               items := (likesKey, encodeLikes (toggledList l pageId)) :: env.store.items } },
           [⟨pageId, !(l.contains (Nat.repr pageId))⟩]) := by
  unfold togglePageLike LocalStorage.setItem
  rw [hwin]
  simp only [Bool.true_eq_false, if_false]
  rw [getAllLikes_of_stored env l hwin hfail hstore hqf, hfail]
  simp only [Bool.false_eq_true, if_false, toggledList]

theorem quoteFree_toggledList (l : List String) (pageId : Nat)
    (hqf : ∀ x ∈ l, QuoteFree x) :
    ∀ x ∈ toggledList l pageId, QuoteFree x := by
  intro x hx
  unfold toggledList at hx
  split at hx
  · exact hqf x (List.mem_of_mem_filter hx)
  · rcases List.mem_append.mp hx with h | h
    · exact hqf x h
    · rw [List.mem_singleton.mp h]; exact quoteFree_repr pageId

theorem contains_likedList (l0 : List String) (pageId : Nat) (p : Bool)
    (hun : Nat.repr pageId ∉ l0) :
    (likedList l0 pageId p).contains (Nat.repr pageId) = p := by
  cases p
  · simp [likedList, hun]
  · simp [likedList]

theorem toggledList_likedList (l0 : List String) (pageId : Nat) (p : Bool)
    (hun : Nat.repr pageId ∉ l0) :
    toggledList (likedList l0 pageId p) pageId = likedList l0 pageId (!p) := by
  unfold toggledList
  rw [contains_likedList l0 pageId p hun]
  cases p
  · rfl
  · simp only [likedList, Bool.not_true, if_true]
    rw [List.filter_append]
    have h1 : l0.filter (fun id => id != Nat.repr pageId) = l0 := by
      apply List.filter_eq_self.mpr
      intro x hx
      simp only [bne_iff_ne, ne_eq, decide_eq_true_eq]
      intro hcontra; exact hun (hcontra ▸ hx)
    have h2 : [Nat.repr pageId].filter (fun id => id != Nat.repr pageId) = [] := by
      simp
    rw [h1, h2, List.append_nil]

theorem quoteFree_likedList (l0 : List String) (pageId : Nat) (p : Bool)
    (hqf : ∀ x ∈ l0, QuoteFree x) :
    ∀ x ∈ likedList l0 pageId p, QuoteFree x := by
  intro x hx
  cases p
  · exact hqf x hx
  · rcases List.mem_append.mp hx with h | h
    · exact hqf x h
    · rw [List.mem_singleton.mp h]; exact quoteFree_repr pageId

theorem altEvents_length (pageId : Nat) (p : Bool) (N : Nat) :
    (altEvents pageId p N).length = N := by
  induction N generalizing p with
  | zero => rfl
  | succ n ih => simp [altEvents, ih]

theorem xor_not_parity (p : Bool) (N : Nat) :
    xor (!p) (decide (N % 2 = 1)) = xor p (decide ((N + 1) % 2 = 1)) := by
  rcases Nat.mod_two_eq_zero_or_one N with h | h
  · have h1 : (N + 1) % 2 = 1 := by omega
    simp [h, h1]
  · have h1 : (N + 1) % 2 = 0 := by omega
    simp [h, h1]

theorem toggleN_good (l0 : List String) (pageId : Nat)
    (hqf : ∀ x ∈ l0, QuoteFree x) (hun : Nat.repr pageId ∉ l0) :
    ∀ (N : Nat) (p : Bool) (env : Env),
      env.window = true → env.store.failing = false →
      env.store.lookupItem likesKey = some (encodeLikes (likedList l0 pageId p)) →
      ∃ env', toggleN env pageId N = .ok (env', altEvents pageId p N) ∧
        env'.window = true ∧ env'.store.failing = false ∧
        env'.store.lookupItem likesKey
          = some (encodeLikes (likedList l0 pageId (xor p (decide (N % 2 = 1))))) := by
  intro N
  induction N with
  | zero =>
    intro p env hwin hfail hstore
    exact ⟨env, rfl, hwin, hfail, by simpa using hstore⟩
  | succ n ih =>
    intro p env hwin hfail hstore
    have hstep := togglePageLike_good env pageId (likedList l0 pageId p) hwin hfail hstore
      (quoteFree_likedList l0 pageId p hqf)
    rw [toggledList_likedList l0 pageId p hun, contains_likedList l0 pageId p hun] at hstep
    set env1 : Env := { env with store := { env.store with
      items := (likesKey, encodeLikes (likedList l0 pageId (!p))) :: env.store.items } }
      with henv1
    obtain ⟨env', hrun, hwin', hfail', hstore'⟩ :=
      ih (!p) env1 hwin hfail (lookupItem_prepend env.store likesKey _)
    refine ⟨env', ?_, hwin', hfail', ?_⟩
    · show toggleN env pageId (n + 1) = _
      unfold toggleN
      rw [hstep]
      simp only [bind, Except.bind]
      rw [hrun]
      rfl
    · rw [hstore', xor_not_parity p n]

/-! ## Data model of the feed

A wiki page as the feed stores it: id, title, and an optional thumbnail
object whose `source` field may itself be absent.  In JavaScript both
the thumbnail object and its source string are tested for truthiness
(an empty source string is falsy).
-/

structure Thumb where
  source : Option String
deriving DecidableEq

structure Page where
  pageid : Nat
  title : String
  thumbnail : Option Thumb
deriving DecidableEq

/-- Truthiness of an optional string: present and non-empty. -/
def truthyStr : Option String → Bool
  | none => false
  | some s => s ≠ ""

/-- The filter predicate of loadWikiPages: `page.thumbnail &&
page.thumbnail.source`. -/
def hasThumbnail (p : Page) : Bool :=
  match p.thumbnail with
  | none => false
  | some t => truthyStr t.source

/-! ## Feed controller (the Home component) -/

/-- The state variables of the Home component. -/
structure FeedState where
  wikiPages : List Page
  currentIndex : Nat
  loading : Bool
  loadError : Option String
  isDragging : Bool
  startY : Rat
  dragOffset : Rat
deriving DecidableEq

/-- The state at mount: all useState initial values. -/
def initialFeedState : FeedState :=
  { wikiPages := [], currentIndex := 0, loading := false, loadError := none,
    isDragging := false, startY := 0, dragOffset := 0 }

/-- Outcome of a remote batch fetch. -/
inductive FetchResult where
  | ok (pages : List Page)
  | error (msg : String)
deriving DecidableEq

/-- The swipe threshold of finishSwipe and handleTouchEnd, in percent of
the viewport height. -/
def threshold : Rat := 15

/-- Result of a gesture release: the new state, and whether
loadWikiPages was invoked. -/
structure SwipeResult where
  state : FeedState
  calledMore : Bool
deriving DecidableEq

/-- finishSwipe: commit or cancel the drag on release.  The index
comparison is done on integers as in JavaScript, where
`wikiPages.length - 1` can be `-1`. -/
def finishSwipe (s : FeedState) : SwipeResult :=
  if s.isDragging = false then ⟨s, false⟩
  else
    let res : SwipeResult :=
      if threshold < |s.dragOffset| then
        if 0 < s.dragOffset then
          if (s.currentIndex : Int) < (s.wikiPages.length : Int) - 1 then
            ⟨{ s with currentIndex := s.currentIndex + 1 }, false⟩
          else ⟨s, true⟩
        else
          if 0 < s.currentIndex then
            ⟨{ s with currentIndex := s.currentIndex - 1 }, false⟩
          else ⟨s, false⟩
      else ⟨s, false⟩
    ⟨{ res.state with dragOffset := 0, isDragging := false }, res.calledMore⟩

/-- The condition of the low-water effect: `wikiPages.length -
currentIndex < 3 && !loading`, on integers. -/
def lowWaterTriggers (s : FeedState) : Bool :=
  ((s.wikiPages.length : Int) - (s.currentIndex : Int) < 3) && !s.loading

/-- The synchronous prefix of loadWikiPages: the single-flight guard, and
on passing it, setting the loading flag, clearing the error, and issuing
the remote batch request (the returned flag). -/
def beginLoad (s : FeedState) : FeedState × Bool :=
  if s.loading then (s, false)
  else ({ s with loading := true, loadError := none }, true)

/-- The continuation of loadWikiPages once the fetch settles: filter the
batch to pages with a usable thumbnail and append them; an empty
filtered batch or a fetch error records the error message and schedules
one retry (the returned flag) after the fixed 3000 ms backoff; `finally`
clears the loading flag in every path. -/
def completeLoad (s : FeedState) (result : FetchResult) : FeedState × Bool :=
  match result with
  | .ok newPages =>
    let pagesWithImages := newPages.filter hasThumbnail
    if pagesWithImages.length = 0 then
      ({ s with loadError := some "Failed to load new pages with images",
                loading := false }, true)
    else
      ({ s with wikiPages := s.wikiPages ++ pagesWithImages, loading := false }, false)
  | .error msg => ({ s with loadError := some msg, loading := false }, true)

/-- Result of one full loadWikiPages call. -/
structure LoadResult where
  state : FeedState
  requested : Bool
  retryScheduled : Bool
deriving DecidableEq

/-- One full loadWikiPages call whose fetch (if issued) settles with the
given result. -/
def loadWikiPages (s : FeedState) (result : FetchResult) : LoadResult :=
  let p := beginLoad s
  if p.2 then
    let q := completeLoad p.1 result
    ⟨q.1, true, q.2⟩
  else ⟨p.1, false, false⟩

/-! ## Single-flight trace semantics

Requests are temporally extended: `callMore` runs the synchronous prefix
of loadWikiPages and, when the guard lets it through, puts one request
in flight; `response` settles an in-flight request; gesture events touch
only the drag fields.  `outstanding` counts the in-flight batch
requests.
-/

structure SysState where
  feed : FeedState
  outstanding : Nat
deriving DecidableEq

def initialSysState : SysState := ⟨initialFeedState, 0⟩

inductive SysStep : SysState → SysState → Prop where
  | callMore (s : SysState) :
      SysStep s ⟨(beginLoad s.feed).1,
                 s.outstanding + (if (beginLoad s.feed).2 then 1 else 0)⟩
  | response (s : SysState) (r : FetchResult) (h : 0 < s.outstanding) :
      SysStep s ⟨(completeLoad s.feed r).1, s.outstanding - 1⟩
  | release (s : SysState) :
      SysStep s ⟨(finishSwipe s.feed).state, s.outstanding⟩
  | drag (s : SysState) (d y : Rat) (b : Bool) :
      SysStep s ⟨{ s.feed with dragOffset := d, startY := y, isDragging := b },
                 s.outstanding⟩

/-- A state the component can reach from mount. -/
def Reachable (s : SysState) : Prop :=
  Relation.ReflTransGen SysStep initialSysState s

/-! ## Feed browser (the WikiBrowser component, the other swipe feed) -/

structure BrowserState where
  wikiPages : List Page
  currentIndex : Nat
  loading : Bool
  swipePosition : Rat
deriving DecidableEq

structure TouchEndResult where
  state : BrowserState
  calledMore : Bool
deriving DecidableEq

/-- handleTouchEnd of WikiBrowser: same threshold and commit logic as
finishSwipe, on the swipePosition variable, always resetting it to 0. -/
def handleTouchEnd (s : BrowserState) : TouchEndResult :=
  let res : TouchEndResult :=
    if threshold < |s.swipePosition| then
      if 0 < s.swipePosition then
        if (s.currentIndex : Int) < (s.wikiPages.length : Int) - 1 then
          ⟨{ s with currentIndex := s.currentIndex + 1 }, false⟩
        else ⟨s, true⟩
      else
        if 0 < s.currentIndex then
          ⟨{ s with currentIndex := s.currentIndex - 1 }, false⟩
        else ⟨s, false⟩
    else ⟨s, false⟩
  ⟨{ res.state with swipePosition := 0 }, res.calledMore⟩

/-! ## String helpers for the wikiapi embedding -/

/-- Replace the first occurrence of a non-empty literal pattern, as
JavaScript String.replace does with a string pattern. -/
def replaceFirstAux (pat rep : List Char) : List Char → List Char
  | [] => []
  | c :: cs =>
    if (c :: cs).take pat.length = pat then rep ++ (c :: cs).drop pat.length
    else c :: replaceFirstAux pat rep cs

def replaceFirst (s pat rep : String) : String :=
  String.mk (replaceFirstAux pat.data rep.data s.data)

/-- Length of a match of the regular expression for one slash, one or
more decimal digits, then the letters p x and a dash, at the head of the
stream; none when the head does not match. -/
def pxMatchLen (cs : List Char) : Option Nat :=
  match cs with
  | '/' :: rest =>
    let digits := rest.takeWhile (fun c => c.isDigit)
    if digits.length ≠ 0 ∧ (rest.drop digits.length).take 3 = ['p', 'x', '-'] then
      some (1 + digits.length + 3)
    else none
  | _ => none

def replacePxAux : List Char → List Char
  | [] => []
  | c :: cs =>
    match pxMatchLen (c :: cs) with
    | some n => "/800px-".data ++ (c :: cs).drop n
    | none => c :: replacePxAux cs

/-- thumbnailUrl.replace of the px-size regular expression by the string
for 800px: rewrite the first size segment of the URL. -/
def replacePx (s : String) : String := String.mk (replacePxAux s.data)

/-- Hexadecimal digit characters used by percent-encoding. -/
def hexDigit (n : Nat) : Char :=
  "0123456789ABCDEF".data.getD n '0'

/-- A byte encodeURIComponent leaves unescaped: ASCII alphanumeric or
one of the marks - _ . ! ~ * ( ) and the apostrophe. -/
def uriUnreserved (c : Char) : Bool :=
  c.isAlphanum || c = '-' || c = '_' || c = '.' || c = '!' || c = '~' ||
    c = '*' || c = '(' || c = ')' || c.toNat = 39

/-- encodeURIComponent: percent-encode every UTF-8 byte outside the
unreserved set. -/
def encodeURIComponent (s : String) : String :=
  String.mk (s.toUTF8.toList.flatMap (fun b =>
    let n := b.toNat
    let c := Char.ofNat n
    if n < 128 ∧ uriUnreserved c then [c]
    else ['%', hexDigit (n / 16), hexDigit (n % 16)]))

/-! ## wikiapi: extractImages and getThumbnailImages

extractImages makes two remote queries; we embed it as a function of the
two responses.  The first response is the list of media titles of the
page (absent when the response carries no query, pages, page or images,
per the early returns); the second is the list of imageinfo pages for
the queried titles, each carrying the head of its imageinfo array when
that array is non-empty.
-/

structure MediaRef where
  title : String
deriving DecidableEq

structure ImageInfo where
  url : String
  width : Int
  height : Int
deriving DecidableEq

structure InfoPage where
  title : String
  imageinfo : Option ImageInfo
deriving DecidableEq

/-- A value stored in the image list and the content cache: either the
object form with url and alt produced by extractImages, or the bare URL
string pushed by getThumbnailImages. -/
inductive MediaItem where
  | obj (url : String) (alt : String)
  | raw (url : String)
deriving DecidableEq

/-- The filename filter of extractImages: the case-insensitive regular
expression for a jpg, jpeg, png or gif suffix (checked on the lowercased
characters). -/
def isRasterImage (t : String) : Bool :=
  let l := t.data.map Char.toLower
  ".jpg".data.isSuffixOf l || ".jpeg".data.isSuffixOf l ||
    ".png".data.isSuffixOf l || ".gif".data.isSuffixOf l

/-- Whether the pattern occurs as a substring (JavaScript includes). -/
def hasSubstr (pat : String) (s : String) : Bool :=
  go s.data
where
  go : List Char → Bool
    | [] => pat.data.isEmpty
    | c :: cs => ((c :: cs).take pat.data.length = pat.data : Bool) || go cs

/-- The second filename filter: titles containing Icon or Logo are
excluded. -/
def notIconLogo (t : String) : Bool :=
  !(hasSubstr "Icon" t) && !(hasSubstr "Logo" t)

/-- The candidate files: raster filenames, no icons or logos, at most
10. -/
def candidateFiles (imgs : List MediaRef) : List MediaRef :=
  (((imgs.filter (fun i => isRasterImage i.title)).filter
      (fun i => notIconLogo i.title))).take 10

/-- Pixel area of an info page, used by the descending sort. -/
def area (p : InfoPage) : Int :=
  match p.imageinfo with
  | some i => i.width * i.height
  | none => 0

/-- The width filter: `img.imageinfo && img.imageinfo[0].width > 300`. -/
def bigEnough (p : InfoPage) : Bool :=
  match p.imageinfo with
  | some i => 300 < i.width
  | none => false

/-- Stable insertion into a list sorted descending by area (ties keep
source order, as the JavaScript sort is stable). -/
def insertDesc (x : InfoPage) : List InfoPage → List InfoPage
  | [] => [x]
  | y :: ys => if area y < area x then x :: y :: ys else y :: insertDesc x ys

def sortDesc : List InfoPage → List InfoPage
  | [] => []
  | x :: xs => insertDesc x (sortDesc xs)

/-- The images kept from the info response: width over 300, sorted by
descending pixel area, top 3. -/
def selectedImages (infoResp : List InfoPage) : List InfoPage :=
  (sortDesc (infoResp.filter bigEnough)).take 3

/-- URL of an info page (the url of the imageinfo head). -/
def infoUrl (p : InfoPage) : String :=
  match p.imageinfo with
  | some i => i.url
  | none => ""

/-- The entry extractImages builds for one selected image. -/
def mkEntry (p : InfoPage) : MediaItem :=
  .obj (infoUrl p) (replaceFirst p.title "File:" "")

/-- extractImages, over the two responses.  The early returns for a
missing or empty images list and for an empty candidate list come first;
otherwise the info response is filtered, sorted and capped. -/
def extractImages (imagesResp : Option (List MediaRef))
    (infoResp : List InfoPage) : List MediaItem :=
  match imagesResp with
  | none => []
  | some imgs =>
    if imgs.length = 0 then []
    else if (candidateFiles imgs).length = 0 then []
    else (selectedImages infoResp).map mkEntry

/-- The placeholder URL keyed by title used when a page has no thumbnail. -/
def placeholderUrl (title : String) : String :=
  "https://source.unsplash.com/800x600/?" ++
    encodeURIComponent (if title = "" then "wikipedia" else title)

/-- getThumbnailImages: the bare thumbnail URL with its size segment
rewritten to 800px when the page has a truthy thumbnail source,
otherwise the placeholder.  Note the entries are plain strings, not
url/alt objects. -/
def getThumbnailImages (page : Page) : List MediaItem :=
  let images : List MediaItem :=
    match page.thumbnail with
    | some t =>
      match t.source with
      | some src => if src = "" then [] else [.raw (replacePx src)]
      | none => []
    | none => []
  if images.length = 0 then [.raw (placeholderUrl page.title)] else images

/-! ## WikiCard.loadImages and the content cache -/

/-- The module level image cache, keyed by the string of the word images,
an underscore and the page id. -/
abbrev ImageCache : Type := List (String × List MediaItem)

def cacheLookup (c : ImageCache) (k : String) : Option (List MediaItem) :=
  ((List.find? (fun p => p.1 == k) c)).map Prod.snd

def cacheKeyOf (pageid : Nat) : String := "images_" ++ Nat.repr pageid

structure LoadImagesResult where
  cache : ImageCache
  images : List MediaItem

/-- loadImages of WikiCard, with the fetched extractImages result passed
in.  A falsy pageid throws, caught into an empty image list; a cache hit
returns the cached entry; otherwise an empty fetch falls back to
getThumbnailImages, the list is capped at 3, cached and returned. -/
def loadImages (cache : ImageCache) (page : Page) (fetched : List MediaItem) :
    LoadImagesResult :=
  if page.pageid = 0 then ⟨cache, []⟩
  else
    match cacheLookup cache (cacheKeyOf page.pageid) with
    | some imgs => ⟨cache, imgs⟩
    | none =>
      let fetchedImages := if fetched.length = 0 then getThumbnailImages page
                           else fetched
      let optimizedImages := fetchedImages.take 3
      ⟨(cacheKeyOf page.pageid, optimizedImages) :: cache, optimizedImages⟩

end WikiTok

deriving instance DecidableEq for Except

namespace WikiTok

/-! ## Supporting lemmas for the claims about storage.js -/

theorem find_filter_ne_key (items : List (String × String)) (k k' : String)
    (h : k ≠ k') :
    (items.filter (fun p => !(p.1 == k'))).find? (fun p => p.1 == k)
      = items.find? (fun p => p.1 == k) := by
  induction items with
  | nil => rfl
  | cons p ps ih =>
    by_cases hp : p.1 = k'
    · have h1 : (p.1 == k') = true := by simp [hp]
      have h2 : (p.1 == k) = false := by
        simp only [beq_eq_false_iff_ne, ne_eq]
        intro hc; exact h (hc ▸ hp ▸ rfl)
      simp [List.filter_cons, h1, List.find?_cons, h2, ih]
    · have h1 : (p.1 == k') = false := by simp [hp]
      cases hk : (p.1 == k) with
      | true => simp [List.filter_cons, h1, List.find?_cons, hk]
      | false => simp [List.filter_cons, h1, List.find?_cons, hk, ih]

theorem clearAllLikes_window (env : Env) : (clearAllLikes env).window = env.window := by
  unfold clearAllLikes LocalStorage.removeItem
  split
  · rfl
  · split <;> rfl

theorem clearAllLikes_failing (env : Env) :
    (clearAllLikes env).store.failing = env.store.failing := by
  unfold clearAllLikes LocalStorage.removeItem
  by_cases hw : env.window = false
  · simp [hw]
  · by_cases hf : env.store.failing = true
    · simp [hw, hf]
    · simp [hw, hf]

theorem clearAllLikes_lookup (env : Env) :
    (clearAllLikes env).store.lookupItem likesKey
      = env.store.lookupItem likesKey := by
  unfold clearAllLikes LocalStorage.removeItem
  by_cases hw : env.window = false
  · simp [hw]
  · by_cases hf : env.store.failing = true
    · simp [hw, hf]
    · simp only [hw, hf, if_false, Bool.false_eq_true]
      unfold LocalStorage.lookupItem
      show ((env.store.items.filter _).find? _).map Prod.snd = _
      rw [find_filter_ne_key env.store.items likesKey LIKES_STORAGE_KEY
        (by decide)]

theorem getAllLikes_congr (e₁ e₂ : Env)
    (hw : e₁.window = e₂.window) (hf : e₁.store.failing = e₂.store.failing)
    (hl : e₁.store.lookupItem likesKey = e₂.store.lookupItem likesKey) :
    getAllLikes e₁ = getAllLikes e₂ := by
  unfold getAllLikes LocalStorage.getItem
  rw [hw, hf, hl]

/-- C10: clearAllLikes removes the storage key wikitok underscore liked
underscore pages while every read and write of the liked set uses the
wikiTokLikes key, so it
changes neither getAllLikes nor isPageLiked for any id and any store. -/
theorem c10_clearAllLikes_frame (env : Env) (pageId : Nat) :
    getAllLikes (clearAllLikes env) = getAllLikes env ∧
    isPageLiked (clearAllLikes env) pageId = isPageLiked env pageId := by
  have hg : getAllLikes (clearAllLikes env) = getAllLikes env :=
    getAllLikes_congr _ _ (clearAllLikes_window env) (clearAllLikes_failing env)
      (clearAllLikes_lookup env)
  refine ⟨hg, ?_⟩
  unfold isPageLiked
  rw [clearAllLikes_window env, hg]

/-- C9 counterexample: with window defined and the persistent store
erroring, togglePageLike does not return false as a failed no-op; the
unguarded localStorage.setItem call throws the storage error to the
caller, refuting the claim that togglePageLike never throws. -/
theorem c9_counterexample :
    togglePageLike ⟨true, ⟨[], true⟩⟩ 5 = .error "storage unavailable" := by
  decide

/-- C9 amended: when the store errors, getAllLikes and isPageLiked are
caught no-ops returning the empty list and false; togglePageLike is a
false-returning no-op only when window is undefined, and throws the
storage error to its caller when the store errors with window defined
(its setItem call sits outside every try/catch). -/
theorem c9_storage_error_behaviour (env : Env) (pageId : Nat) :
    (env.store.failing = true →
      getAllLikes env = [] ∧ isPageLiked env pageId = false) ∧
    (env.window = false → togglePageLike env pageId = .ok (false, env, [])) ∧
    (env.window = true → env.store.failing = true →
      togglePageLike env pageId = .error "storage unavailable") := by
  refine ⟨?_, ?_, ?_⟩
  · intro hfail
    have hg : getAllLikes env = [] := by
      unfold getAllLikes LocalStorage.getItem
      rw [hfail]
      split <;> simp
    refine ⟨hg, ?_⟩
    unfold isPageLiked
    rw [hg]
    split <;> simp
  · intro hwin
    unfold togglePageLike
    rw [hwin]
    rfl
  · intro hwin hfail
    unfold togglePageLike LocalStorage.setItem
    rw [hwin, hfail]
    simp

/-- C9 witness: the amended behaviour at a concrete erroring store and a
concrete server-side environment. -/
theorem c9_witness :
    getAllLikes ⟨true, ⟨[], true⟩⟩ = [] ∧
    isPageLiked ⟨true, ⟨[], true⟩⟩ 7 = false ∧
    togglePageLike ⟨false, ⟨[], false⟩⟩ 7
      = .ok (false, ⟨false, ⟨[], false⟩⟩, []) ∧
    togglePageLike ⟨true, ⟨[], true⟩⟩ 7 = .error "storage unavailable" := by
  have h1 := c9_storage_error_behaviour ⟨true, ⟨[], true⟩⟩ 7
  have h2 := c9_storage_error_behaviour ⟨false, ⟨[], false⟩⟩ 7
  exact ⟨(h1.1 rfl).1, (h1.1 rfl).2, h2.2.1 rfl, h1.2.2 rfl rfl⟩

/-- C1: from an un-liked well-formed state, N sequential togglePageLike
calls leave the page liked exactly when N is odd, every call dispatches
exactly one likeStatusChanged event carrying the new liked state (so the
events alternate, starting at liked), and in particular two consecutive
toggles restore the original liked state and deliver exactly two
events. -/
theorem c1_toggle_parity (env : Env) (pageId : Nat) (l0 : List String) (N : Nat)
    (hwin : env.window = true) (hfail : env.store.failing = false)
    (hstore : env.store.lookupItem likesKey = some (encodeLikes l0))
    (hqf : ∀ x ∈ l0, QuoteFree x)
    (hunliked : Nat.repr pageId ∉ l0) :
    isPageLiked env pageId = false ∧
    ∃ env' evs, toggleN env pageId N = .ok (env', evs) ∧
      isPageLiked env' pageId = decide (N % 2 = 1) ∧
      evs = altEvents pageId false N ∧ evs.length = N ∧
      (N = 2 → isPageLiked env' pageId = isPageLiked env pageId ∧
        evs.length = 2) := by
  have hg0 : getAllLikes env = l0 := getAllLikes_of_stored env l0 hwin hfail hstore hqf
  have hstart : isPageLiked env pageId = false := by
    unfold isPageLiked
    rw [hwin, hg0]
    simp [hunliked]
  obtain ⟨env', hrun, hwin', hfail', hstore'⟩ :=
    toggleN_good l0 pageId hqf hunliked N false env hwin hfail hstore
  have hliked : isPageLiked env' pageId = decide (N % 2 = 1) := by
    unfold isPageLiked
    rw [hwin', getAllLikes_of_stored env' _ hwin' hfail' hstore'
      (quoteFree_likedList l0 pageId _ hqf)]
    rw [contains_likedList l0 pageId _ hunliked]
    simp
  refine ⟨hstart, env', altEvents pageId false N, hrun, hliked, rfl,
    altEvents_length pageId false N, ?_⟩
  intro hN
  subst hN
  exact ⟨by rw [hliked, hstart]; rfl, altEvents_length pageId false 2⟩

/-- C1 witness: two toggles of page 42 from an empty liked set. -/
theorem c1_witness :
    isPageLiked ⟨true, ⟨[(likesKey, encodeLikes [])], false⟩⟩ 42 = false ∧
    ∃ env' evs,
      toggleN ⟨true, ⟨[(likesKey, encodeLikes [])], false⟩⟩ 42 2
        = .ok (env', evs) ∧
      isPageLiked env' 42 = decide (2 % 2 = 1) ∧
      evs = altEvents 42 false 2 ∧ evs.length = 2 ∧
      (2 = 2 → isPageLiked env' 42
          = isPageLiked ⟨true, ⟨[(likesKey, encodeLikes [])], false⟩⟩ 42 ∧
        evs.length = 2) :=
  c1_toggle_parity ⟨true, ⟨[(likesKey, encodeLikes [])], false⟩⟩ 42 [] 2
    rfl rfl (by decide) (by simp) (by simp)

/-! ## Supporting lemmas for the feed claims -/

theorem completeLoad_loading (s : FeedState) (r : FetchResult) :
    (completeLoad s r).1.loading = false := by
  unfold completeLoad
  cases r with
  | ok pages =>
    dsimp only
    split <;> rfl
  | error msg => rfl

theorem finishSwipe_loading (s : FeedState) :
    (finishSwipe s).state.loading = s.loading := by
  unfold finishSwipe
  split
  · rfl
  · dsimp only
    split_ifs <;> rfl

/-- The invariant tying the loading flag to the number of in-flight
batch requests: the guard at the top of loadWikiPages keeps them in
lock-step. -/
theorem sys_invariant (s : SysState) (h : Reachable s) :
    s.outstanding = if s.feed.loading = true then 1 else 0 := by
  induction h with
  | refl => rfl
  | tail hsteps hstep ih =>
    rename_i t u
    cases hstep with
    | callMore =>
      by_cases hl : t.feed.loading = true
      · simpa [beginLoad, hl] using ih
      · simp only [Bool.not_eq_true] at hl
        simp [beginLoad, hl] at ih ⊢
        omega
    | response r hout =>
      have hl : t.feed.loading = true := by
        by_contra hc
        simp only [Bool.not_eq_true] at hc
        rw [ih, hc] at hout
        simp at hout
      rw [ih, hl] at hout ⊢
      simp [completeLoad_loading t.feed r]
    | release =>
      simpa [finishSwipe_loading t.feed] using ih
    | drag d y b =>
      simpa using ih

/-- C6: calling loadWikiPages while the loading flag is set returns at
the guard without issuing a batch request or changing the state, and in
every reachable system state at most one batch request is in flight. -/
theorem c6_single_flight (s : SysState) (h : Reachable s) (t : FeedState)
    (r : FetchResult) (hl : t.loading = true) :
    s.outstanding ≤ 1 ∧ loadWikiPages t r = ⟨t, false, false⟩ := by
  constructor
  · rw [sys_invariant s h]
    split <;> omega
  · unfold loadWikiPages beginLoad
    rw [hl]
    rfl

/-- C6 witness: the invariant at the initial state, and the guard on a
concrete loading state. -/
theorem c6_witness :
    initialSysState.outstanding ≤ 1 ∧
    loadWikiPages { initialFeedState with loading := true } (.error "boom")
      = ⟨{ initialFeedState with loading := true }, false, false⟩ :=
  c6_single_flight initialSysState Relation.ReflTransGen.refl
    { initialFeedState with loading := true } (.error "boom") rfl

/-- C2: on a release while dragging, with threshold 15 percent: an
offset of magnitude at most 15 snaps back; an offset over 15 with room
ahead advances by exactly one; an offset under minus 15 with a positive
index retreats by exactly one, and at index 0 is a no-op; the offset is
reset to 0 in every case.  The same holds of handleTouchEnd in the
WikiBrowser component. -/
theorem c2_release_commit (s : FeedState) (t : BrowserState)
    (hdrag : s.isDragging = true) :
    (|s.dragOffset| ≤ threshold →
      (finishSwipe s).state.currentIndex = s.currentIndex) ∧
    (threshold < s.dragOffset →
      (s.currentIndex : Int) < (s.wikiPages.length : Int) - 1 →
      (finishSwipe s).state.currentIndex = s.currentIndex + 1) ∧
    (s.dragOffset < -threshold → 0 < s.currentIndex →
      (finishSwipe s).state.currentIndex = s.currentIndex - 1) ∧
    (s.dragOffset < -threshold → s.currentIndex = 0 →
      (finishSwipe s).state.currentIndex = 0) ∧
    (finishSwipe s).state.dragOffset = 0 ∧
    (|t.swipePosition| ≤ threshold →
      (handleTouchEnd t).state.currentIndex = t.currentIndex) ∧
    (threshold < t.swipePosition →
      (t.currentIndex : Int) < (t.wikiPages.length : Int) - 1 →
      (handleTouchEnd t).state.currentIndex = t.currentIndex + 1) ∧
    (t.swipePosition < -threshold → 0 < t.currentIndex →
      (handleTouchEnd t).state.currentIndex = t.currentIndex - 1) ∧
    (t.swipePosition < -threshold → t.currentIndex = 0 →
      (handleTouchEnd t).state.currentIndex = 0) ∧
    (handleTouchEnd t).state.swipePosition = 0 := by
  refine ⟨?_, ?_, ?_, ?_, ?_, ?_, ?_, ?_, ?_, ?_⟩
  · intro h
    unfold finishSwipe
    rw [hdrag]
    dsimp only
    split_ifs with h1 h2 h3 h4 <;> first | rfl | (exfalso; linarith)
  · intro h hroom
    have habs : threshold < |s.dragOffset| := lt_of_lt_of_le h (le_abs_self _)
    have hpos : 0 < s.dragOffset := lt_trans (by norm_num [threshold]) h
    unfold finishSwipe
    rw [hdrag]
    dsimp only
    rw [if_neg (by simp), if_pos habs, if_pos hpos, if_pos hroom]
  · intro h hidx
    have habs : threshold < |s.dragOffset| := by
      rw [abs_of_neg (by linarith [show (0:Rat) < threshold by norm_num [threshold]])]
      linarith
    have hneg : ¬ (0 < s.dragOffset) := by
      intro hc
      have : (0:Rat) < threshold := by norm_num [threshold]
      linarith
    unfold finishSwipe
    rw [hdrag]
    dsimp only
    rw [if_neg (by simp), if_pos habs, if_neg hneg, if_pos hidx]
  · intro h hidx
    have habs : threshold < |s.dragOffset| := by
      rw [abs_of_neg (by linarith [show (0:Rat) < threshold by norm_num [threshold]])]
      linarith
    have hneg : ¬ (0 < s.dragOffset) := by
      intro hc
      have : (0:Rat) < threshold := by norm_num [threshold]
      linarith
    unfold finishSwipe
    rw [hdrag]
    dsimp only
    rw [if_neg (by simp), if_pos habs, if_neg hneg, if_neg (by omega)]
    exact hidx
  · unfold finishSwipe
    rw [hdrag]
    dsimp only
    split_ifs <;> first | rfl | simp_all
  · intro h
    unfold handleTouchEnd
    dsimp only
    split_ifs with h1 h2 h3 h4 <;> first | rfl | (exfalso; linarith)
  · intro h hroom
    have habs : threshold < |t.swipePosition| := lt_of_lt_of_le h (le_abs_self _)
    have hpos : 0 < t.swipePosition := lt_trans (by norm_num [threshold]) h
    unfold handleTouchEnd
    dsimp only
    rw [if_pos habs, if_pos hpos, if_pos hroom]
  · intro h hidx
    have habs : threshold < |t.swipePosition| := by
      rw [abs_of_neg (by linarith [show (0:Rat) < threshold by norm_num [threshold]])]
      linarith
    have hneg : ¬ (0 < t.swipePosition) := by
      intro hc
      have : (0:Rat) < threshold := by norm_num [threshold]
      linarith
    unfold handleTouchEnd
    dsimp only
    rw [if_pos habs, if_neg hneg, if_pos hidx]
  · intro h hidx
    have habs : threshold < |t.swipePosition| := by
      rw [abs_of_neg (by linarith [show (0:Rat) < threshold by norm_num [threshold]])]
      linarith
    have hneg : ¬ (0 < t.swipePosition) := by
      intro hc
      have : (0:Rat) < threshold := by norm_num [threshold]
      linarith
    unfold handleTouchEnd
    dsimp only
    rw [if_pos habs, if_neg hneg, if_neg (by omega)]
    exact hidx
  · unfold handleTouchEnd
    dsimp only

/-- A page with id 1 and a usable thumbnail, used as concrete data. -/
def pageA : Page := ⟨1, "Alpha", some ⟨some "https://upload.wikimedia.org/a.jpg"⟩⟩

/-- A feed state already holding pageA, not loading, mid-drag with an
offset of 20 percent. -/
def dragState : FeedState :=
  { wikiPages := [pageA], currentIndex := 0, loading := false, loadError := none,
    isDragging := true, startY := 0, dragOffset := 20 }

/-- C2 witness: a concrete release at offset 20 over a one-page feed
snaps the offset back to 0, and a concrete 10-percent release leaves the
index unchanged. -/
theorem c2_witness :
    (finishSwipe dragState).state.dragOffset = 0 ∧
    (finishSwipe { dragState with dragOffset := 10 }).state.currentIndex
      = ({ dragState with dragOffset := 10 } : FeedState).currentIndex :=
  ⟨(c2_release_commit dragState ⟨[], 0, false, 0⟩ rfl).2.2.2.2.1,
   (c2_release_commit { dragState with dragOffset := 10 } ⟨[], 0, false, 0⟩
      rfl).1 (by norm_num [threshold])⟩

/-- C3 counterexample: a batch can contain a page whose id is already in
the sequence; loadWikiPages appends it anyway (there is no duplicate-id
rejection in the code), so id uniqueness is not preserved. -/
theorem c3_counterexample :
    ¬ (((loadWikiPages { initialFeedState with wikiPages := [pageA] }
          (.ok [pageA])).state.wikiPages.map Page.pageid).Nodup) := by
  decide

/-- C3 amended: a pagination append filters the fetched batch to pages
with a usable thumbnail and appends the whole filtered batch to the
sequence, with no duplicate-id rejection; ids already present are
appended again rather than rejected. -/
theorem c3_append_filtered_batch (s : FeedState) (pages : List Page)
    (hload : s.loading = false)
    (hne : (pages.filter hasThumbnail).length ≠ 0) :
    (loadWikiPages s (.ok pages)).state.wikiPages
      = s.wikiPages ++ pages.filter hasThumbnail := by
  unfold loadWikiPages beginLoad completeLoad
  rw [hload]
  simp only [Bool.false_eq_true, if_false, if_true]
  rw [if_neg hne]

/-- C3 witness: appending a batch holding the page already in the feed
duplicates it. -/
theorem c3_witness :
    (loadWikiPages { initialFeedState with wikiPages := [pageA] }
        (.ok [pageA])).state.wikiPages
      = [pageA] ++ [pageA].filter hasThumbnail :=
  c3_append_filtered_batch { initialFeedState with wikiPages := [pageA] }
    [pageA] rfl (by decide)

/-- C4 counterexample: after a single fetch failure the feed-level error
flag is already set, in the same step in which the first retry is merely
scheduled, refuting the claim that the flag is set only after that first
retry also fails. -/
theorem c4_counterexample :
    (loadWikiPages initialFeedState (.error "Network Error")).state.loadError
      = some "Network Error" ∧
    (loadWikiPages initialFeedState (.error "Network Error")).retryScheduled
      = true := by
  decide

/-- C4 amended: on every fetch failure (a rejected fetch, or a batch
with no usable thumbnails) the error flag is set immediately to the
failure message and one retry is scheduled after the fixed 3000 ms
backoff; this repeats on every consecutive failure; and previously
loaded items are unchanged in every failure case, with the loading flag
cleared. -/
theorem c4_failure_behaviour (s : FeedState) (msg : String) (pages : List Page)
    (hload : s.loading = false) :
    ((loadWikiPages s (.error msg)).state.loadError = some msg ∧
     (loadWikiPages s (.error msg)).retryScheduled = true ∧
     (loadWikiPages s (.error msg)).state.wikiPages = s.wikiPages ∧
     (loadWikiPages s (.error msg)).state.loading = false) ∧
    ((pages.filter hasThumbnail).length = 0 →
     (loadWikiPages s (.ok pages)).state.loadError
        = some "Failed to load new pages with images" ∧
     (loadWikiPages s (.ok pages)).retryScheduled = true ∧
     (loadWikiPages s (.ok pages)).state.wikiPages = s.wikiPages ∧
     (loadWikiPages s (.ok pages)).state.loading = false) := by
  constructor
  · unfold loadWikiPages beginLoad completeLoad
    rw [hload]
    simp
  · intro hempty
    unfold loadWikiPages beginLoad completeLoad
    rw [hload]
    simp only [Bool.false_eq_true, if_false, if_true]
    rw [if_pos hempty]
    simp

/-- C4 witness: the amended behaviour at a concrete failing fetch and at
a concrete batch with no thumbnails. -/
theorem c4_witness :
    (loadWikiPages initialFeedState (.error "Network Error")).state.wikiPages
      = initialFeedState.wikiPages ∧
    (loadWikiPages initialFeedState
        (.ok [⟨9, "NoThumb", none⟩])).state.loadError
      = some "Failed to load new pages with images" :=
  ⟨((c4_failure_behaviour initialFeedState "Network Error" [] rfl).1).2.2.1,
   ((c4_failure_behaviour initialFeedState "Network Error" [⟨9, "NoThumb", none⟩]
      rfl).2 (by decide)).1⟩

/-- Five concrete pages with usable thumbnails and distinct ids. -/
def fivePages : List Page :=
  [⟨1, "P1", some ⟨some "https://u/1.jpg"⟩⟩,
   ⟨2, "P2", some ⟨some "https://u/2.jpg"⟩⟩,
   ⟨3, "P3", some ⟨some "https://u/3.jpg"⟩⟩,
   ⟨4, "P4", some ⟨some "https://u/4.jpg"⟩⟩,
   ⟨5, "P5", some ⟨some "https://u/5.jpg"⟩⟩]

/-- The C7 scenario state: five items, index 3, mid-drag at offset 20,
nothing loading. -/
def c7state : FeedState :=
  { wikiPages := fivePages, currentIndex := 3, loading := false, loadError := none,
    isDragging := true, startY := 0, dragOffset := 20 }

/-- C7: releasing at offset 0.20 of the viewport (threshold 0.15) with 5
items at index 3 commits the index to 4 without finishSwipe itself
calling more; the low-water effect then fires and issues exactly one
batch request (a second call is stopped by the guard); and a committed
advance released when the index is already at the last item calls more
instead of changing the index. -/
theorem c7_advance_triggers_more :
    (finishSwipe c7state).state.currentIndex = 4 ∧
    (finishSwipe c7state).calledMore = false ∧
    lowWaterTriggers (finishSwipe c7state).state = true ∧
    (beginLoad (finishSwipe c7state).state).2 = true ∧
    (beginLoad (beginLoad (finishSwipe c7state).state).1).2 = false ∧
    (finishSwipe { c7state with currentIndex := 4 }).state.currentIndex = 4 ∧
    (finishSwipe { c7state with currentIndex := 4 }).calledMore = true := by
  decide

/-! ## Supporting lemmas for the media claims -/

theorem cacheLookup_prepend (c : ImageCache) (k : String) (v : List MediaItem) :
    cacheLookup ((k, v) :: c) k = some v := by
  simp [cacheLookup, List.find?]

/-- The thumbnail URL of the C5 scenario. -/
def c5thumbUrl : String :=
  "https://upload.wikimedia.org/wikipedia/commons/thumb/a/ab/Foo.jpg/320px-Foo.jpg"

/-- The C5 scenario page: id 7 with the thumbnail above. -/
def c5page : Page := ⟨7, "Foo", some ⟨some c5thumbUrl⟩⟩

/-- C5 counterexample: when extractImages yields nothing and the page has
thumbnail T, the cached entry is a one-element list holding the bare URL
string with its size segment rewritten to 800px, not the object list
with url T and empty alt the claim states. -/
theorem c5_counterexample :
    cacheLookup (loadImages [] c5page (extractImages none [])).cache
        (cacheKeyOf 7)
      = some [MediaItem.raw
          "https://upload.wikimedia.org/wikipedia/commons/thumb/a/ab/Foo.jpg/800px-Foo.jpg"] ∧
    cacheLookup (loadImages [] c5page (extractImages none [])).cache
        (cacheKeyOf 7)
      ≠ some [MediaItem.obj c5thumbUrl ""] := by
  constructor
  · decide
  · decide

/-- C5 amended: if extractImages yields zero usable media and the page
has a truthy thumbnail source T, then after loading images into a cache
with no entry for the page, the cached entry for that id equals the
one-element list holding the bare string of T with its px-size path
segment rewritten to 800px. -/
theorem c5_thumbnail_fallback (cache : ImageCache) (page : Page)
    (r1 : Option (List MediaRef)) (r2 : List InfoPage) (src : String)
    (hex : extractImages r1 r2 = [])
    (hthumb : page.thumbnail = some ⟨some src⟩) (hsrc : src ≠ "")
    (hid : page.pageid ≠ 0)
    (hmiss : cacheLookup cache (cacheKeyOf page.pageid) = none) :
    cacheLookup (loadImages cache page (extractImages r1 r2)).cache
        (cacheKeyOf page.pageid)
      = some [.raw (replacePx src)] := by
  rw [hex]
  have hg : getThumbnailImages page = [.raw (replacePx src)] := by
    unfold getThumbnailImages
    rw [hthumb]
    simp [hsrc]
  unfold loadImages
  rw [if_neg hid, hmiss]
  dsimp only
  rw [show (if ([] : List MediaItem).length = 0 then getThumbnailImages page
        else []) = getThumbnailImages page from rfl, hg]
  exact cacheLookup_prepend cache (cacheKeyOf page.pageid) _

/-- C5 witness: the amended fallback at the concrete scenario page. -/
theorem c5_witness :
    cacheLookup (loadImages [] c5page (extractImages none [])).cache
        (cacheKeyOf c5page.pageid)
      = some [.raw (replacePx c5thumbUrl)] :=
  c5_thumbnail_fallback [] c5page none [] c5thumbUrl rfl rfl
    (by decide) (by decide) rfl

theorem mem_insertDesc (x y : InfoPage) (l : List InfoPage)
    (h : y ∈ insertDesc x l) : y = x ∨ y ∈ l := by
  induction l with
  | nil =>
    unfold insertDesc at h
    exact Or.inl (List.mem_singleton.mp h)
  | cons z zs ih =>
    unfold insertDesc at h
    split at h
    · rcases List.mem_cons.mp h with h1 | h1
      · exact Or.inl h1
      · exact Or.inr h1
    · rcases List.mem_cons.mp h with h1 | h1
      · exact Or.inr (by simp [h1])
      · rcases ih h1 with h2 | h2
        · exact Or.inl h2
        · exact Or.inr (by simp [h2])

theorem mem_sortDesc (y : InfoPage) (l : List InfoPage)
    (h : y ∈ sortDesc l) : y ∈ l := by
  induction l with
  | nil => exact absurd h (by simp [sortDesc])
  | cons z zs ih =>
    unfold sortDesc at h
    rcases mem_insertDesc z y (sortDesc zs) h with h1 | h1
    · simp [h1]
    · simp [ih h1]

/-- Sortedness (weak descending order on pixel area) of stable
insertion. -/
theorem pairwise_insertDesc (x : InfoPage) (l : List InfoPage)
    (h : l.Pairwise (fun a b => area b ≤ area a)) :
    (insertDesc x l).Pairwise (fun a b => area b ≤ area a) := by
  induction l with
  | nil => simp [insertDesc]
  | cons z zs ih =>
    obtain ⟨hz, hzs⟩ := List.pairwise_cons.mp h
    unfold insertDesc
    split
    · rename_i hlt
      refine List.pairwise_cons.mpr ⟨?_, h⟩
      intro y hy
      rcases List.mem_cons.mp hy with h1 | h1
      · subst h1; exact le_of_lt hlt
      · exact le_trans (hz y h1) (le_of_lt hlt)
    · rename_i hge
      have hxz : area x ≤ area z := not_lt.mp hge
      refine List.pairwise_cons.mpr ⟨?_, ih hzs⟩
      intro y hy
      rcases mem_insertDesc x y zs hy with h1 | h1
      · subst h1; exact hxz
      · exact hz y h1

theorem pairwise_sortDesc (l : List InfoPage) :
    (sortDesc l).Pairwise (fun a b => area b ≤ area a) := by
  induction l with
  | nil => simp [sortDesc]
  | cons z zs ih => exact pairwise_insertDesc z (sortDesc zs) ih

theorem mem_selectedImages (p : InfoPage) (infoResp : List InfoPage)
    (h : p ∈ selectedImages infoResp) :
    p ∈ infoResp ∧ bigEnough p = true := by
  have h1 : p ∈ sortDesc (infoResp.filter bigEnough) :=
    List.take_subset 3 _ h
  have h2 : p ∈ infoResp.filter bigEnough := mem_sortDesc _ _ h1
  exact ⟨List.mem_of_mem_filter h2, List.of_mem_filter h2⟩

theorem mem_candidateFiles (m : MediaRef) (imgs : List MediaRef)
    (h : m ∈ candidateFiles imgs) :
    isRasterImage m.title = true ∧ notIconLogo m.title = true := by
  have h1 : m ∈ (imgs.filter (fun i => isRasterImage i.title)).filter
      (fun i => notIconLogo i.title) := List.take_subset 10 _ h
  have h2 := List.mem_filter.mp h1
  have h3 := List.mem_filter.mp h2.1
  exact ⟨h3.2, h2.2⟩

/-- C8: for every pair of API responses whose info pages answer the
queried candidate titles, extractImages returns at most 3 entries; every
selected image has a raster filename free of Icon and Logo and a width
over 300; the selection is ordered by non-increasing pixel area; and on
the non-empty path the returned entries are exactly the selection mapped
to url/alt objects. -/
theorem c8_extract_filters (imgs : List MediaRef) (infoResp : List InfoPage)
    (hlink : ∀ p ∈ infoResp, ∃ m ∈ candidateFiles imgs, p.title = m.title) :
    (extractImages (some imgs) infoResp).length ≤ 3 ∧
    (∀ p ∈ selectedImages infoResp,
        isRasterImage p.title = true ∧ notIconLogo p.title = true ∧
        bigEnough p = true) ∧
    ((selectedImages infoResp).map area).Pairwise (fun a b : Int => b ≤ a) ∧
    (imgs.length ≠ 0 → (candidateFiles imgs).length ≠ 0 →
      extractImages (some imgs) infoResp = (selectedImages infoResp).map mkEntry) := by
  refine ⟨?_, ?_, ?_, ?_⟩
  · unfold extractImages
    dsimp only
    split_ifs
    · simp
    · simp
    · calc ((selectedImages infoResp).map mkEntry).length
          = (selectedImages infoResp).length := List.length_map _ _
        _ ≤ 3 := List.length_take_le 3 _
  · intro p hp
    obtain ⟨hmem, hbig⟩ := mem_selectedImages p infoResp hp
    obtain ⟨m, hmc, htitle⟩ := hlink p hmem
    obtain ⟨hraster, hicon⟩ := mem_candidateFiles m imgs hmc
    rw [htitle]
    exact ⟨hraster, hicon, hbig⟩
  · refine List.pairwise_map.mpr ?_
    exact List.Pairwise.sublist (List.take_sublist 3 _) (pairwise_sortDesc _)
  · intro h1 h2
    unfold extractImages
    dsimp only
    rw [if_neg h1, if_neg h2]

/-- C8 witness: a concrete pair of responses with one candidate file. -/
theorem c8_witness :
    (extractImages (some [⟨"File:A.jpg"⟩])
        [⟨"File:A.jpg", some ⟨"https://u/a.jpg", 400, 300⟩⟩]).length ≤ 3 :=
  (c8_extract_filters [⟨"File:A.jpg"⟩]
    [⟨"File:A.jpg", some ⟨"https://u/a.jpg", 400, 300⟩⟩] (by decide)).1

end WikiTok
